import Mathlib

/-
Shallow embedding of `src/lib/auth.js` (blitz-js-loader): the Auth class that
generates RSA keys on first use and provisions per-node root credentials.

Modelling conventions:
* JS strings that may be `undefined` become `Option String`; JS truthiness of
  such a value is `truthy` below (`undefined` and `""` are falsy).
* The mongo `users` collection is a list of records; `deleteOne` removes the
  first record whose `user_id` matches (mongo deleteOne semantics); `insertOne`
  appends.
* `credentials.json` is an association list from node id to the plaintext
  `{user_key, user_secret}` pair; the file itself is `Option Cache`, `none`
  standing for a missing or unparsable file (JSON.parse throwing).
* Randomness (`randtoken.uid(256)`) and `bcrypt.hash` are parameters of the
  functions that use them.
* Each async entry point returns a `StepResult`: the process state and node
  config as mutated up to the point where the call settled (or suspended),
  the settlement (`ok`, `err` = rejected, `hang` = never settles), and the
  trace of I/O effects it issued.
* `insertOne` on line 137 of the source is NOT awaited: in the embedding its
  store mutation is dropped when the insert fails, but the failure does not
  turn the result into `err`.
-/

namespace BlitzAuth

/-- Settlement of a JS promise chain: resolved, rejected, or never settles. -/
inductive JsResult (α : Type) where
  | ok (a : α)
  | err
  | hang
deriving DecidableEq, Repr

/-- JS truthiness of a possibly-undefined string: `undefined` and `""` are falsy. -/
def truthy : Option String → Bool
  | none => false
  | some s => !(s == "")

/-- JS `a || b` on possibly-undefined strings: first operand if truthy, else second. -/
def jsOr (a b : Option String) : Option String :=
  if truthy a then a else b

/-- A document of the mongo `users` collection, as built on auth.js lines 129-136. -/
structure UserRecord where
  user_key : String
  user_secret : String
  user_id : String
  last_ip : List String
  scope : String
  refresh_token : String
deriving DecidableEq, Repr

/-- One entry of `credentials.json`: the plaintext pair kept locally. -/
structure CredPair where
  user_key : String
  user_secret : String
deriving DecidableEq, Repr

/-- Contents of `credentials.json`: node id keyed object, as an association list. -/
abbrev Cache := List (String × CredPair)

/-- Property access `credentials[id]`. -/
def lookupCred : Cache → String → Option CredPair
  | [], _ => none
  | (i, v) :: rest, id => if i = id then some v else lookupCred rest id

/-- Property assignment `credentials[id] = pair` (overwrite in place or append). -/
def setCred : Cache → String → CredPair → Cache
  | [], id, v => [(id, v)]
  | (i, w) :: rest, id, v =>
      if i = id then (i, v) :: rest else (i, w) :: setCred rest id v

/-- `db.collection('users').deleteOne({ user_id: id })`: removes the first match. -/
def deleteOne : List UserRecord → String → List UserRecord
  | [], _ => []
  | r :: rs, id => if r.user_id = id then rs else r :: deleteOne rs id

/-- Number of records of the `users` collection carrying a given `user_id`. -/
def countId (store : List UserRecord) (id : String) : Nat :=
  (store.filter (fun r => r.user_id = id)).length

/-- I/O operations issued by `checkUser`, in program order. -/
inductive Effect where
  | dbConnect (url : Option String)
  | readCredFile
  | dbDeleteOne (id : String)
  | dbInsertOne (r : UserRecord)
  | writeCredFile (c : Cache)
deriving DecidableEq, Repr

/-- Does the effect mutate the shared store (delete or insert)? -/
def isStoreWrite : Effect → Bool
  | Effect.dbDeleteOne _ => true
  | Effect.dbInsertOne _ => true
  | _ => false

/-- Does the effect rewrite the local credentials cache file? -/
def isFileWrite : Effect → Bool
  | Effect.writeCredFile _ => true
  | _ => false

/-- Operator-supplied overrides (`config.provided`), the fields auth.js reads. -/
structure Provided where
  userSecret : Option String := none
  mongoUrl : Option String := none
deriving DecidableEq, Repr

/-- Mutable per-node configuration (`config.local`), the fields auth.js touches. -/
structure LocalCfg where
  mongoUrl : Option String := none
  certPublic : Option String := none
  certPrivate : Option String := none
  userKey : Option String := none
  userSecret : Option String := none
deriving DecidableEq, Repr

/-- A node's config object, as passed to `verify(type, id, config)`. -/
structure Config where
  provided : Provided := {}
  local_ : LocalCfg := {}
deriving DecidableEq, Repr

/-- Process-wide state of the Auth singleton plus the two persistence tiers:
`certPublic`/`certPrivate` mirror the instance fields, `authDb` is the
`this.authDb` promise (`none` = pending, `some v` = resolved with `v`, where
`v` itself may be `undefined`), `store` is the mongo `users` collection and
`cacheFile` the on-disk `credentials.json`. -/
structure AuthState where
  certPublic : Option String := none
  certPrivate : Option String := none
  authDb : Option (Option String) := none
  store : List UserRecord := []
  cacheFile : Option Cache := none
deriving DecidableEq, Repr

/-- Result of running one async entry point: state and config as mutated up to
settlement, the settlement itself, and the I/O effects issued. -/
structure StepResult where
  state : AuthState
  config : Config
  outcome : JsResult Unit
  effects : List Effect
deriving DecidableEq, Repr

/-- Which awaited I/O operations fail during a `checkUser` run. -/
structure FailSpec where
  connectFails : Bool := false
  deleteFails : Bool := false
  insertFails : Bool := false
  writeFails : Bool := false
deriving DecidableEq, Repr

/-- The no-failure environment. -/
def noFail : FailSpec := {}

/-- Lines 147-148: `config.local.userKey = user_key; config.local.userSecret = user_secret`. -/
def setUserCreds (c : Config) (k s : String) : Config :=
  { c with local_ := { c.local_ with userKey := some k, userSecret := some s } }

/-- Embedding of `checkUser(id, config)` (auth.js lines 100-149).
`k`, `s`, `t2` are the three `randtoken.uid(256)` draws in program order,
`hash` is `bcrypt.hash`. It first awaits `this.authDb` (hangs while pending),
connects to mongo, reads the cache file (missing/corrupt means `{}`), then
either returns the cached pair or creates: deleteOne, insertOne (not awaited:
a failed insert is silently lost), cache-file rewrite. -/
def checkUser (id : String) (config : Config) (st : AuthState)
    (k s t2 : String) (hash : String → String) (f : FailSpec) : StepResult :=
  match st.authDb with
  | none => ⟨st, config, JsResult.hang, []⟩
  | some url =>
    if f.connectFails then ⟨st, config, JsResult.err, [Effect.dbConnect url]⟩
    else
      let credentials := st.cacheFile.getD []
      let e0 := [Effect.dbConnect url, Effect.readCredFile]
      match lookupCred credentials id with
      | some pair =>
          ⟨st, setUserCreds config pair.user_key pair.user_secret, JsResult.ok (), e0⟩
      | none =>
          if f.deleteFails then ⟨st, config, JsResult.err, e0 ++ [Effect.dbDeleteOne id]⟩
          else
            let st1 := { st with store := deleteOne st.store id }
            let user : UserRecord :=
              ⟨k, hash s, id, [], "write_root", k ++ t2⟩
            let st2 := if f.insertFails then st1
                       else { st1 with store := st1.store ++ [user] }
            let e1 := e0 ++ [Effect.dbDeleteOne id, Effect.dbInsertOne user]
            let newCreds := setCred credentials id ⟨k, s⟩
            if f.writeFails then ⟨st2, config, JsResult.err, e1⟩
            else
              ⟨{ st2 with cacheFile := some newCreds },
               setUserCreds config k s, JsResult.ok (),
               e1 ++ [Effect.writeCredFile newCreds]⟩

/-- Resolution of the `this.authDb` promise: a second resolve is a no-op. -/
def resolveDb (st : AuthState) (v : Option String) : AuthState :=
  match st.authDb with
  | none => { st with authDb := some v }
  | some _ => st

/-- Embedding of `verifyUser(type, id, config)` (auth.js lines 89-98): only a
`core` node with no truthy provided `userSecret` triggers `checkUser`; if the
node is `auth_core` it resolves `this.authDb` from its provided or local mongo
url before `checkUser` resumes past its first await. -/
def verifyUser (type id : String) (config : Config) (st : AuthState)
    (k s t2 : String) (hash : String → String) (f : FailSpec) : StepResult :=
  if type = "core" ∧ truthy config.provided.userSecret = false then
    let st1 := if id = "auth_core"
               then resolveDb st (jsOr config.provided.mongoUrl config.local_.mongoUrl)
               else st
    checkUser id config st1 k s t2 hash f
  else ⟨st, config, JsResult.ok (), []⟩

/-- Embedding of `verifyKeys(type, id, config)` (auth.js lines 78-83). -/
def verifyKeys (type id : String) (config : Config) (st : AuthState) : Config :=
  if type = "api" ∨ type = "auth" then
    { config with local_ :=
        { config.local_ with certPublic := st.certPublic, certPrivate := st.certPrivate } }
  else config

/-- Filesystem view of the certificate directory as `checkRSAKeys` sees it:
whether `lstat` on `auth.private.pem` succeeds, the readable contents of the
two PEM files (`none` = missing or unreadable), and the `.gitignore` marker. -/
structure CertFS where
  privateStat : Bool := false
  privateRead : Option String := none
  publicRead : Option String := none
  gitignore : Option String := none
deriving DecidableEq, Repr

/-- Embedding of `checkRSAKeys(resolve)` (auth.js lines 42-64). `genPub` and
`genPriv` are the keys `generateKeys()` would produce, `writeFails` makes one
of the awaited `writeFile` calls on lines 59-61 reject. Any failure of the
lstat/read sequence falls into the catch block and triggers generation (mkdir
failures are swallowed on lines 53-58); an uncaught write failure rejects the
whole async function, so no `resolve()` happens and the result is `err`.
On success the returned triple is (certPublic, certPrivate, filesystem state
after any persistence). -/
def checkRSAKeys (fsys : CertFS) (genPub genPriv : String) (writeFails : Bool) :
    JsResult (String × String × CertFS) :=
  match fsys.privateStat, fsys.privateRead, fsys.publicRead with
  | true, some priv, some pub => JsResult.ok (pub, priv, fsys)
  | _, _, _ =>
      if writeFails then JsResult.err
      else JsResult.ok (genPub, genPriv,
        { privateStat := true, privateRead := some genPriv,
          publicRead := some genPub, gitignore := some "*.*" })

/-- The `this.ready` promise after the constructor ran `checkRSAKeys`:
`resolve()` on line 63 is reached only when `checkRSAKeys` did not throw, and
by then both certs are instance fields; a rejected `checkRSAKeys` leaves the
promise pending forever (the constructor only ever calls `resolve`). -/
def readyAfterCheck (r : JsResult (String × String × CertFS)) : Option (String × String) :=
  match r with
  | JsResult.ok (pub, priv, _) => some (pub, priv)
  | _ => none

/-- Embedding of `verify(type, id, config)` (auth.js lines 69-73), including
the `await this.ready` on the `checkRSAKeys` outcome `rsa`: while `this.ready`
is pending the call never proceeds (hang); once ready, the instance cert
fields are in memory, `verifyKeys` runs synchronously and `verifyUser` is
awaited. -/
def verify (type id : String) (config : Config)
    (rsa : JsResult (String × String × CertFS)) (st0 : AuthState)
    (k s t2 : String) (hash : String → String) (f : FailSpec) : StepResult :=
  match readyAfterCheck rsa with
  | none => ⟨st0, config, JsResult.hang, []⟩
  | some (pub, priv) =>
      let st := { st0 with certPublic := some pub, certPrivate := some priv }
      let config1 := verifyKeys type id config st
      verifyUser type id config1 st k s t2 hash f

/-- A concrete stand-in for `bcrypt.hash`, used by witnesses. -/
def hash0 (s : String) : String := "bcrypt$" ++ s

/-- A node config with no overrides, used by witnesses. -/
def cfg0 : Config := {}

/-- An `auth_core` config whose provided `userSecret` is the empty string and
which carries a mongo url override. -/
def cfgEmptySecret : Config :=
  { provided := { userSecret := some "", mongoUrl := some "mongodb://auth" } }

/-- Fresh process state: nothing resolved, empty store, no cache file. -/
def stFresh : AuthState := {}

/-- Process state whose db-target promise is resolved, empty store, no cache. -/
def stResolved : AuthState := { authDb := some (some "mongodb://auth") }

/-- Process state with a resolved db target and a cache file holding an entry
for `jobs_core`. -/
def stCached : AuthState :=
  { authDb := some (some "mongodb://auth"),
    cacheFile := some [("jobs_core", ⟨"CK", "CS"⟩)] }

/-- Certificate directory with no readable key files. -/
def fsMissing : CertFS := {}

/-- Certificate directory with both PEM files present and readable. -/
def fsLoaded : CertFS :=
  { privateStat := true, privateRead := some "PRIVPEM", publicRead := some "PUBPEM" }

/-- Failure environment where only the (unawaited) `insertOne` fails. -/
def insertOnlyFails : FailSpec := { insertFails := true }

section Lemmas

theorem lookupCred_setCred_self (c : Cache) (id : String) (v : CredPair) :
    lookupCred (setCred c id v) id = some v := by
  induction c with
  | nil => simp [setCred, lookupCred]
  | cons hd tl ih =>
      obtain ⟨i, w⟩ := hd
      by_cases h : i = id
      · simp [setCred, lookupCred, h]
      · simp [setCred, lookupCred, h, ih]

theorem countId_nil (id : String) : countId [] id = 0 := rfl

theorem countId_cons (r : UserRecord) (rs : List UserRecord) (id : String) :
    countId (r :: rs) id = (if r.user_id = id then 1 else 0) + countId rs id := by
  by_cases h : r.user_id = id <;> simp [countId, h, Nat.add_comm]

theorem countId_append (xs ys : List UserRecord) (id : String) :
    countId (xs ++ ys) id = countId xs id + countId ys id := by
  simp [countId, List.filter_append]

theorem countId_deleteOne (s : List UserRecord) (id : String)
    (h : countId s id ≤ 1) : countId (deleteOne s id) id = 0 := by
  induction s with
  | nil => simp [deleteOne, countId]
  | cons r rs ih =>
      rw [countId_cons] at h
      by_cases hr : r.user_id = id
      · rw [deleteOne]
        simp only [hr, if_true]
        simp [hr] at h
        omega
      · rw [deleteOne]
        simp only [hr, if_false]
        rw [countId_cons]
        simp only [hr, if_false]
        simp [hr] at h
        simpa using ih h

theorem checkUser_pending (id : String) (config : Config) (st : AuthState)
    (k s t2 : String) (hash : String → String) (f : FailSpec)
    (h : st.authDb = none) :
    checkUser id config st k s t2 hash f = ⟨st, config, JsResult.hang, []⟩ := by
  unfold checkUser
  rw [h]

theorem checkUser_hit (id : String) (config : Config) (st : AuthState)
    (k s t2 : String) (hash : String → String) (f : FailSpec)
    (url : Option String) (pair : CredPair)
    (hdb : st.authDb = some url)
    (hconn : f.connectFails = false)
    (hhit : lookupCred (st.cacheFile.getD []) id = some pair) :
    checkUser id config st k s t2 hash f =
      ⟨st, setUserCreds config pair.user_key pair.user_secret, JsResult.ok (),
       [Effect.dbConnect url, Effect.readCredFile]⟩ := by
  unfold checkUser
  rw [hdb]
  simp [hconn, hhit]

theorem checkUser_miss (id : String) (config : Config) (st : AuthState)
    (k s t2 : String) (hash : String → String)
    (url : Option String)
    (hdb : st.authDb = some url)
    (hmiss : lookupCred (st.cacheFile.getD []) id = none) :
    checkUser id config st k s t2 hash noFail =
      ⟨{ st with
           store := deleteOne st.store id ++ [⟨k, hash s, id, [], "write_root", k ++ t2⟩]
           cacheFile := some (setCred (st.cacheFile.getD []) id ⟨k, s⟩) },
       setUserCreds config k s, JsResult.ok (),
       [Effect.dbConnect url, Effect.readCredFile, Effect.dbDeleteOne id,
        Effect.dbInsertOne ⟨k, hash s, id, [], "write_root", k ++ t2⟩,
        Effect.writeCredFile (setCred (st.cacheFile.getD []) id ⟨k, s⟩)]⟩ := by
  unfold checkUser
  rw [hdb]
  simp [noFail, hmiss]

theorem checkUser_authDb (id : String) (config : Config) (st : AuthState)
    (k s t2 : String) (hash : String → String) (f : FailSpec) :
    (checkUser id config st k s t2 hash f).state.authDb = st.authDb := by
  unfold checkUser
  rcases hdb : st.authDb with _ | url
  · exact hdb
  · by_cases hc : f.connectFails
    · simp [hc, hdb]
    · simp only [hc]
      rcases hl : lookupCred (st.cacheFile.getD []) id with _ | pair
      · by_cases hd : f.deleteFails
        · simp [hd, hl, hdb]
        · by_cases hw : f.writeFails
          · by_cases hi : f.insertFails <;> simp [hd, hw, hi, hl, hdb]
          · by_cases hi : f.insertFails <;> simp [hd, hw, hi, hl, hdb]
      · simp [hl, hdb]

theorem checkUser_connect_url (id : String) (config : Config) (st : AuthState)
    (k s t2 : String) (hash : String → String) (f : FailSpec) (u : Option String) :
    Effect.dbConnect u ∈ (checkUser id config st k s t2 hash f).effects →
      st.authDb = some u := by
  unfold checkUser
  rcases hdb : st.authDb with _ | url
  · intro h
    simp at h
  · by_cases hc : f.connectFails
    · simp [hc]
      intro h
      simp [h, hdb]
    · simp only [hc]
      rcases hl : lookupCred (st.cacheFile.getD []) id with _ | pair
      · by_cases hd : f.deleteFails
        · simp [hd, hl]
          intro h
          simp [h, hdb]
        · by_cases hw : f.writeFails
          · by_cases hi : f.insertFails <;>
              · simp [hd, hw, hi, hl]
                intro h
                simp [h, hdb]
          · by_cases hi : f.insertFails <;>
              · simp [hd, hw, hi, hl]
                intro h
                simp [h, hdb]
      · simp [hl]
        intro h
        simp [h, hdb]

theorem checkUser_ok_authDb (id : String) (config : Config) (st : AuthState)
    (k s t2 : String) (hash : String → String) (f : FailSpec)
    (h : (checkUser id config st k s t2 hash f).outcome = JsResult.ok ()) :
    ∃ u, st.authDb = some u := by
  revert h
  unfold checkUser
  rcases hdb : st.authDb with _ | url
  · intro h
    simp at h
  · intro _
    exact ⟨url, rfl⟩

theorem resolveDb_resolved (st : AuthState) (u v : Option String)
    (h : st.authDb = some v) : resolveDb st u = st := by
  unfold resolveDb
  rw [h]

theorem ifResolve_resolved (p : Prop) [Decidable p] (st : AuthState)
    (u v : Option String) (h : st.authDb = some v) :
    (if p then resolveDb st u else st) = st := by
  split
  · exact resolveDb_resolved st u v h
  · rfl

theorem verifyUser_core (id : String) (c : Config) (st : AuthState)
    (k s t2 : String) (hash : String → String) (f : FailSpec)
    (h : truthy c.provided.userSecret = false) :
    verifyUser "core" id c st k s t2 hash f =
      checkUser id c
        (if id = "auth_core"
         then resolveDb st (jsOr c.provided.mongoUrl c.local_.mongoUrl) else st)
        k s t2 hash f := by
  simp [verifyUser, h]

end Lemmas

section Claims

/-- Claim C1 (refuted by the code, spec is the intent): when the shared-store
insert fails on `checkUser`'s creation path (connect and delete succeeding),
the error is NOT fatal: `checkUser` still resolves successfully, the plaintext
pair is persisted to the local cache file and written into `config.local`,
and the shared store ends up with no record for the id — precisely the silent
memory-only degradation the spec rules out. The root cause is that `insertOne`
(auth.js line 137) is the one database call that is not awaited, so its
rejection cannot propagate through the awaited call chain. -/
theorem insert_failure_resolves_with_cache_only_credential :
    (checkUser "jobs_core" cfg0 stResolved "K1" "S1" "T1" hash0 insertOnlyFails).outcome
        = JsResult.ok () ∧
    (checkUser "jobs_core" cfg0 stResolved "K1" "S1" "T1" hash0 insertOnlyFails).state.store
        = [] ∧
    (checkUser "jobs_core" cfg0 stResolved "K1" "S1" "T1" hash0 insertOnlyFails).state.cacheFile
        = some [("jobs_core", ⟨"K1", "S1"⟩)] ∧
    (checkUser "jobs_core" cfg0 stResolved "K1" "S1" "T1" hash0 insertOnlyFails).config.local_.userKey
        = some "K1" ∧
    (checkUser "jobs_core" cfg0 stResolved "K1" "S1" "T1" hash0 insertOnlyFails).config.local_.userSecret
        = some "S1" := by
  refine ⟨?_, ?_, ?_, ?_, ?_⟩ <;> decide

/-- Claim C2: for every node id present in the local credentials cache,
`checkUser` resolves successfully with the cached pair copied into
`config.local`, leaves the whole process state (shared store and cache file
included) unchanged, and its effect trace is exactly the mongo connect and the
cache-file read — no shared-store delete, no insert, no cache-file rewrite. -/
theorem cache_hit_reads_only (id : String) (config : Config) (st : AuthState)
    (k s t2 : String) (hash : String → String) (url : Option String) (pair : CredPair)
    (hdb : st.authDb = some url)
    (hhit : lookupCred (st.cacheFile.getD []) id = some pair) :
    (checkUser id config st k s t2 hash noFail).outcome = JsResult.ok () ∧
    (checkUser id config st k s t2 hash noFail).config.local_.userKey = some pair.user_key ∧
    (checkUser id config st k s t2 hash noFail).config.local_.userSecret = some pair.user_secret ∧
    (checkUser id config st k s t2 hash noFail).state = st ∧
    (checkUser id config st k s t2 hash noFail).effects
      = [Effect.dbConnect url, Effect.readCredFile] ∧
    ∀ e ∈ (checkUser id config st k s t2 hash noFail).effects,
      isStoreWrite e = false ∧ isFileWrite e = false := by
  rw [checkUser_hit id config st k s t2 hash noFail url pair hdb rfl hhit]
  refine ⟨rfl, rfl, rfl, rfl, rfl, ?_⟩
  intro e he
  simp only [List.mem_cons, List.not_mem_nil, or_false] at he
  rcases he with rfl | rfl
  · exact ⟨rfl, rfl⟩
  · exact ⟨rfl, rfl⟩

/-- Witness for C2 at a concrete cached state. -/
theorem cache_hit_reads_only_witness :
    (checkUser "jobs_core" cfg0 stCached "K" "S" "T" hash0 noFail).config.local_.userKey
        = some "CK" ∧
    (checkUser "jobs_core" cfg0 stCached "K" "S" "T" hash0 noFail).state = stCached := by
  have h := cache_hit_reads_only "jobs_core" cfg0 stCached "K" "S" "T" hash0
      (some "mongodb://auth") ⟨"CK", "CS"⟩ (by decide) (by decide)
  exact ⟨h.2.1, h.2.2.2.1⟩

/-- Claim C3: the creation path issues a delete for the id strictly before the
insert (visible in the effect trace), and bootstrapping the same id twice —
with the local cache file deleted between the runs so both runs take the
creation path — leaves exactly one record for that id in the shared store,
provided the store started with at most one such record. -/
theorem store_single_record_per_id (id : String) (cfg1 cfg2 : Config) (st : AuthState)
    (k1 s1 t21 k2 s2 t22 : String) (hash : String → String) (url : Option String)
    (hdb : st.authDb = some url)
    (hcount : countId st.store id ≤ 1)
    (hmiss : lookupCred (st.cacheFile.getD []) id = none) :
    countId (checkUser id cfg1 st k1 s1 t21 hash noFail).state.store id = 1 ∧
    countId (checkUser id cfg2
        { (checkUser id cfg1 st k1 s1 t21 hash noFail).state with cacheFile := none }
        k2 s2 t22 hash noFail).state.store id = 1 ∧
    (checkUser id cfg1 st k1 s1 t21 hash noFail).effects =
      [Effect.dbConnect url, Effect.readCredFile, Effect.dbDeleteOne id,
       Effect.dbInsertOne ⟨k1, hash s1, id, [], "write_root", k1 ++ t21⟩,
       Effect.writeCredFile (setCred (st.cacheFile.getD []) id ⟨k1, s1⟩)] := by
  have hu1 : countId [(⟨k1, hash s1, id, [], "write_root", k1 ++ t21⟩ : UserRecord)] id = 1 := by
    simp [countId]
  have hc1 : countId (deleteOne st.store id ++
      [(⟨k1, hash s1, id, [], "write_root", k1 ++ t21⟩ : UserRecord)]) id = 1 := by
    rw [countId_append, countId_deleteOne st.store id hcount, hu1]
  rw [checkUser_miss id cfg1 st k1 s1 t21 hash url hdb hmiss]
  refine ⟨hc1, ?_, rfl⟩
  dsimp only
  rw [checkUser_miss id cfg2
      ⟨st.certPublic, st.certPrivate, st.authDb,
       deleteOne st.store id ++
         [(⟨k1, hash s1, id, [], "write_root", k1 ++ t21⟩ : UserRecord)], none⟩
      k2 s2 t22 hash url hdb (by simp [lookupCred])]
  show countId (deleteOne (deleteOne st.store id ++
      [(⟨k1, hash s1, id, [], "write_root", k1 ++ t21⟩ : UserRecord)]) id ++
      [(⟨k2, hash s2, id, [], "write_root", k2 ++ t22⟩ : UserRecord)]) id = 1
  rw [countId_append, countId_deleteOne _ id hc1.le]
  simp [countId]

/-- Witness for C3 starting from an empty store with no cache file. -/
theorem store_single_record_per_id_witness :
    countId (checkUser "jobs_core" cfg0
        { (checkUser "jobs_core" cfg0 stResolved "K1" "S1" "T1" hash0 noFail).state with
            cacheFile := none }
        "K2" "S2" "T2" hash0 noFail).state.store "jobs_core" = 1 := by
  have h := store_single_record_per_id "jobs_core" cfg0 cfg0 stResolved
      "K1" "S1" "T1" "K2" "S2" "T2" hash0 (some "mongodb://auth")
      (by decide) (by decide) (by decide)
  exact h.2.1

/-- Claim C5: every record the creation path inserts into the shared store has
scope `write_root`, an empty last-ip list, a refresh token that is `userKey`
concatenated with the second random token, and a secret field that is the
bcrypt hash of `userSecret` (so, for a one-way hash, never the plaintext);
the plaintext pair goes only into the cache-file write. -/
theorem creation_record_shape (id : String) (config : Config) (st : AuthState)
    (k s t2 : String) (hash : String → String) (url : Option String)
    (hdb : st.authDb = some url)
    (hmiss : lookupCred (st.cacheFile.getD []) id = none) :
    (checkUser id config st k s t2 hash noFail).effects =
      [Effect.dbConnect url, Effect.readCredFile, Effect.dbDeleteOne id,
       Effect.dbInsertOne ⟨k, hash s, id, [], "write_root", k ++ t2⟩,
       Effect.writeCredFile (setCred (st.cacheFile.getD []) id ⟨k, s⟩)] ∧
    (∀ r : UserRecord,
       Effect.dbInsertOne r ∈ (checkUser id config st k s t2 hash noFail).effects →
         r.scope = "write_root" ∧ r.last_ip = [] ∧
         r.refresh_token = r.user_key ++ t2 ∧ r.user_secret = hash s ∧
         (hash s ≠ s → r.user_secret ≠ s)) ∧
    (∀ c : Cache,
       Effect.writeCredFile c ∈ (checkUser id config st k s t2 hash noFail).effects →
         lookupCred c id = some ⟨k, s⟩) := by
  rw [checkUser_miss id config st k s t2 hash url hdb hmiss]
  refine ⟨rfl, ?_, ?_⟩
  · intro r hr
    simp at hr
    subst hr
    exact ⟨rfl, rfl, rfl, rfl, fun hne => hne⟩
  · intro c hc
    simp at hc
    subst hc
    exact lookupCred_setCred_self _ id ⟨k, s⟩

/-- Witness for C5 at a concrete fresh state. -/
theorem creation_record_shape_witness :
    (checkUser "jobs_core" cfg0 stResolved "K" "S" "T" hash0 noFail).effects =
      [Effect.dbConnect (some "mongodb://auth"), Effect.readCredFile,
       Effect.dbDeleteOne "jobs_core",
       Effect.dbInsertOne ⟨"K", hash0 "S", "jobs_core", [], "write_root", "K" ++ "T"⟩,
       Effect.writeCredFile (setCred [] "jobs_core" ⟨"K", "S"⟩)] := by
  have h := creation_record_shape "jobs_core" cfg0 stResolved "K" "S" "T" hash0
      (some "mongodb://auth") (by decide) (by decide)
  exact h.1

/-- Claim C4: per-process idempotence of credential resolution. If a first
`verifyUser` call for a `core` node id (no truthy provided `userSecret`)
resolves successfully, a second call for the same id, starting from the state
the first call left behind, also resolves, yields exactly the same `userKey`
and `userSecret` in `config.local`, and is satisfied from the cache: it issues
no shared-store delete or insert and no cache-file write. -/
theorem verify_idempotent_per_id (id : String) (cfgA cfgB : Config) (st : AuthState)
    (k1 s1 t21 k2 s2 t22 : String) (hash : String → String)
    (hA : truthy cfgA.provided.userSecret = false)
    (hB : truthy cfgB.provided.userSecret = false)
    (hok : (verifyUser "core" id cfgA st k1 s1 t21 hash noFail).outcome = JsResult.ok ()) :
    (verifyUser "core" id cfgB
        (verifyUser "core" id cfgA st k1 s1 t21 hash noFail).state
        k2 s2 t22 hash noFail).outcome = JsResult.ok () ∧
    (verifyUser "core" id cfgB
        (verifyUser "core" id cfgA st k1 s1 t21 hash noFail).state
        k2 s2 t22 hash noFail).config.local_.userKey
      = (verifyUser "core" id cfgA st k1 s1 t21 hash noFail).config.local_.userKey ∧
    (verifyUser "core" id cfgB
        (verifyUser "core" id cfgA st k1 s1 t21 hash noFail).state
        k2 s2 t22 hash noFail).config.local_.userSecret
      = (verifyUser "core" id cfgA st k1 s1 t21 hash noFail).config.local_.userSecret ∧
    ∀ e ∈ (verifyUser "core" id cfgB
        (verifyUser "core" id cfgA st k1 s1 t21 hash noFail).state
        k2 s2 t22 hash noFail).effects,
      isStoreWrite e = false ∧ isFileWrite e = false := by
  rw [verifyUser_core id cfgA st k1 s1 t21 hash noFail hA] at hok ⊢
  rw [verifyUser_core id cfgB _ k2 s2 t22 hash noFail hB]
  generalize (if id = "auth_core"
      then resolveDb st (jsOr cfgA.provided.mongoUrl cfgA.local_.mongoUrl)
      else st) = stA at hok ⊢
  obtain ⟨url, hd⟩ := checkUser_ok_authDb id cfgA stA k1 s1 t21 hash noFail hok
  obtain ⟨cp, cpr, adb, sto, cac⟩ := stA
  replace hd : adb = some url := hd
  subst hd
  rcases hl : lookupCred (cac.getD []) id with _ | pair
  · rw [checkUser_miss id cfgA ⟨cp, cpr, some url, sto, cac⟩ k1 s1 t21 hash url rfl hl]
    dsimp only
    rw [ifResolve_resolved (id = "auth_core")
        ⟨cp, cpr, some url,
         deleteOne sto id ++ [(⟨k1, hash s1, id, [], "write_root", k1 ++ t21⟩ : UserRecord)],
         some (setCred (cac.getD []) id ⟨k1, s1⟩)⟩
        (jsOr cfgB.provided.mongoUrl cfgB.local_.mongoUrl) url rfl]
    rw [checkUser_hit id cfgB
        ⟨cp, cpr, some url,
         deleteOne sto id ++ [(⟨k1, hash s1, id, [], "write_root", k1 ++ t21⟩ : UserRecord)],
         some (setCred (cac.getD []) id ⟨k1, s1⟩)⟩
        k2 s2 t22 hash noFail url ⟨k1, s1⟩ rfl rfl
        (lookupCred_setCred_self _ id ⟨k1, s1⟩)]
    refine ⟨rfl, rfl, rfl, ?_⟩
    intro e he
    simp only [List.mem_cons, List.not_mem_nil, or_false] at he
    rcases he with rfl | rfl
    · exact ⟨rfl, rfl⟩
    · exact ⟨rfl, rfl⟩
  · rw [checkUser_hit id cfgA ⟨cp, cpr, some url, sto, cac⟩ k1 s1 t21 hash noFail
        url pair rfl rfl hl]
    dsimp only
    rw [ifResolve_resolved (id = "auth_core") ⟨cp, cpr, some url, sto, cac⟩
        (jsOr cfgB.provided.mongoUrl cfgB.local_.mongoUrl) url rfl]
    rw [checkUser_hit id cfgB ⟨cp, cpr, some url, sto, cac⟩ k2 s2 t22 hash noFail
        url pair rfl rfl hl]
    refine ⟨rfl, rfl, rfl, ?_⟩
    intro e he
    simp only [List.mem_cons, List.not_mem_nil, or_false] at he
    rcases he with rfl | rfl
    · exact ⟨rfl, rfl⟩
    · exact ⟨rfl, rfl⟩

/-- Witness for C4: a fresh `jobs_core` bootstrap followed by a second one
yields the same pair both times. -/
theorem verify_idempotent_per_id_witness :
    (verifyUser "core" "jobs_core" cfg0
        (verifyUser "core" "jobs_core" cfg0 stResolved "K1" "S1" "T1" hash0 noFail).state
        "K2" "S2" "T2" hash0 noFail).config.local_.userKey
      = (verifyUser "core" "jobs_core" cfg0 stResolved
          "K1" "S1" "T1" hash0 noFail).config.local_.userKey := by
  have h := verify_idempotent_per_id "jobs_core" cfg0 cfg0 stResolved
      "K1" "S1" "T1" "K2" "S2" "T2" hash0 (by decide) (by decide) (by decide)
  exact h.2.1

/-- Claim C6: when `auth.private.pem` fails its existence check or either PEM
file is unreadable, `checkRSAKeys` (writes succeeding) resolves with the
freshly generated keypair and a filesystem on which both PEM files and the
`.gitignore` exclusion marker are persisted; and the readiness signal resolves
only when `checkRSAKeys` completed with both certs in memory, so whatever pair
readiness exposes is exactly the loaded-or-generated pair. -/
theorem keypair_generated_and_persisted (fsys : CertFS) (genPub genPriv : String)
    (hmiss : fsys.privateStat = false ∨ fsys.privateRead = none ∨ fsys.publicRead = none) :
    checkRSAKeys fsys genPub genPriv false =
      JsResult.ok (genPub, genPriv, ⟨true, some genPriv, some genPub, some "*.*"⟩) ∧
    readyAfterCheck (checkRSAKeys fsys genPub genPriv false) = some (genPub, genPriv) ∧
    (∀ (r : JsResult (String × String × CertFS)) (pub priv : String),
       readyAfterCheck r = some (pub, priv) → ∃ fs2, r = JsResult.ok (pub, priv, fs2)) := by
  obtain ⟨ps, pr, pb, gi⟩ := fsys
  have hk : checkRSAKeys ⟨ps, pr, pb, gi⟩ genPub genPriv false =
      JsResult.ok (genPub, genPriv, ⟨true, some genPriv, some genPub, some "*.*"⟩) := by
    rcases ps with _ | _ <;> rcases pr with _ | p1 <;> rcases pb with _ | p2 <;>
      first
        | (simp [checkRSAKeys]; done)
        | (exfalso; rcases hmiss with h | h | h <;> simp at h)
  refine ⟨hk, by rw [hk]; rfl, ?_⟩
  intro r pub priv hr
  rcases r with ⟨p3, p4, fs2⟩ | _ | _
  · simp only [readyAfterCheck] at hr
    cases hr
    exact ⟨fs2, rfl⟩
  · simp [readyAfterCheck] at hr
  · simp [readyAfterCheck] at hr

/-- Witness for C6 at an empty certificate directory. -/
theorem keypair_generated_and_persisted_witness :
    checkRSAKeys fsMissing "GP" "GK" false =
      JsResult.ok ("GP", "GK", ⟨true, some "GK", some "GP", some "*.*"⟩) := by
  have h := keypair_generated_and_persisted fsMissing "GP" "GK" (Or.inl (by decide))
  exact h.1

/-- Claim C7 counterexample: with no readable keys and the persistence writes
failing, `checkRSAKeys` rejects, but the error does NOT surface to callers of
`verify` through the readiness chain: `verify` neither succeeds nor errors —
it hangs forever, because the constructor only ever resolves `this.ready` and
the rejection of `checkRSAKeys` is unobserved. -/
theorem key_persist_failure_hangs_not_errors :
    checkRSAKeys fsMissing "GP" "GK" true = JsResult.err ∧
    (verify "api" "api_node" cfg0 (checkRSAKeys fsMissing "GP" "GK" true) stFresh
        "K" "S" "T" hash0 noFail).outcome = JsResult.hang ∧
    (verify "api" "api_node" cfg0 (checkRSAKeys fsMissing "GP" "GK" true) stFresh
        "K" "S" "T" hash0 noFail).outcome ≠ JsResult.err := by
  refine ⟨?_, ?_, ?_⟩ <;> decide

/-- Claim C7 as amended: a filesystem write failure while persisting the
generated keypair is fatal in that the readiness promise never resolves and
every subsequent `verify` call hangs without mutating anything (it never
succeeds — but the error is swallowed, not surfaced); while read failures
during the initial key-existence check merely trigger generation, which (with
writes succeeding) completes normally. -/
theorem key_persist_failure_blocks_verify (fsys : CertFS) (genPub genPriv : String)
    (hmiss : fsys.privateStat = false ∨ fsys.privateRead = none ∨ fsys.publicRead = none) :
    checkRSAKeys fsys genPub genPriv true = JsResult.err ∧
    (∀ (type id : String) (config : Config) (st : AuthState) (k s t2 : String)
       (hash : String → String) (f : FailSpec),
       verify type id config (checkRSAKeys fsys genPub genPriv true) st k s t2 hash f =
         ⟨st, config, JsResult.hang, []⟩) ∧
    (∃ fs2, checkRSAKeys fsys genPub genPriv false = JsResult.ok (genPub, genPriv, fs2)) := by
  obtain ⟨ps, pr, pb, gi⟩ := fsys
  have hk : checkRSAKeys ⟨ps, pr, pb, gi⟩ genPub genPriv true = JsResult.err := by
    rcases ps with _ | _ <;> rcases pr with _ | p1 <;> rcases pb with _ | p2 <;>
      first
        | (simp [checkRSAKeys]; done)
        | (exfalso; rcases hmiss with h | h | h <;> simp at h)
  have hg : checkRSAKeys ⟨ps, pr, pb, gi⟩ genPub genPriv false =
      JsResult.ok (genPub, genPriv, ⟨true, some genPriv, some genPub, some "*.*"⟩) := by
    rcases ps with _ | _ <;> rcases pr with _ | p1 <;> rcases pb with _ | p2 <;>
      first
        | (simp [checkRSAKeys]; done)
        | (exfalso; rcases hmiss with h | h | h <;> simp at h)
  refine ⟨hk, ?_, ⟨_, hg⟩⟩
  intro type id config st k s t2 hash f
  rw [hk]
  rfl

/-- Witness for C7's amended theorem at an empty certificate directory. -/
theorem key_persist_failure_blocks_verify_witness :
    verify "core" "jobs_core" cfg0 (checkRSAKeys fsMissing "GP" "GK" true) stResolved
        "K" "S" "T" hash0 noFail = ⟨stResolved, cfg0, JsResult.hang, []⟩ := by
  have h := key_persist_failure_blocks_verify fsMissing "GP" "GK" (Or.inl (by decide))
  exact h.2.1 "core" "jobs_core" cfg0 stResolved "K" "S" "T" hash0 noFail

/-- Claim C8: the shared database target. (a) Once `this.authDb` is resolved,
no later `verifyUser` call changes its value, so every awaiting caller reads
the same value; (b) only the distinguished node id `auth_core` (as a `core`
node without a truthy provided secret) can resolve it, and it resolves it to
its provided mongo url or else its local default; (c) any other `core` node's
credential resolution blocks (hangs, with no effects and no state change)
while the target is unresolved; (d) whenever the target is resolved with `v`,
any mongo connect issued by the call uses exactly `v`. -/
theorem db_target_single_resolution (t i : String) (c : Config) (st : AuthState)
    (k s t2 : String) (hash : String → String) (f : FailSpec) :
    (∀ v, st.authDb = some v →
       (verifyUser t i c st k s t2 hash f).state.authDb = some v) ∧
    (∀ v, st.authDb = none →
       (verifyUser t i c st k s t2 hash f).state.authDb = some v →
       i = "auth_core" ∧ t = "core" ∧ truthy c.provided.userSecret = false ∧
         v = jsOr c.provided.mongoUrl c.local_.mongoUrl) ∧
    (t = "core" → truthy c.provided.userSecret = false → i ≠ "auth_core" →
       st.authDb = none →
       verifyUser t i c st k s t2 hash f = ⟨st, c, JsResult.hang, []⟩) ∧
    (∀ v u, st.authDb = some v →
       Effect.dbConnect u ∈ (verifyUser t i c st k s t2 hash f).effects → u = v) := by
  refine ⟨?_, ?_, ?_, ?_⟩
  · intro v hv
    unfold verifyUser
    split
    · rw [checkUser_authDb]
      rw [ifResolve_resolved _ st _ v hv]
      exact hv
    · exact hv
  · intro v hv hafter
    revert hafter
    unfold verifyUser
    split
    · rename_i hcond
      rw [checkUser_authDb]
      by_cases hi : i = "auth_core"
      · rw [if_pos hi]
        unfold resolveDb
        rw [hv]
        intro hres
        replace hres : some (jsOr c.provided.mongoUrl c.local_.mongoUrl) = some v := hres
        injection hres with hres2
        subst hres2
        exact ⟨hi, hcond.1, hcond.2, rfl⟩
      · rw [if_neg hi]
        rw [hv]
        intro hres
        cases hres
    · rw [hv]
      intro hres
      cases hres
  · intro ht hsec hi hdb
    unfold verifyUser
    rw [if_pos ⟨ht, hsec⟩]
    simp only [hi, if_false]
    exact checkUser_pending i c st k s t2 hash f hdb
  · intro v u hv hmem
    unfold verifyUser at hmem
    revert hmem
    split
    · rw [ifResolve_resolved _ st _ v hv]
      intro hmem
      have := checkUser_connect_url i c st k s t2 hash f u hmem
      rw [hv] at this
      cases this
      rfl
    · intro hmem
      simp at hmem

/-- Witness for C8: a resolved target stays resolved at the same value across
another node's bootstrap. -/
theorem db_target_single_resolution_witness :
    (verifyUser "core" "jobs_core" cfg0 stResolved "K" "S" "T" hash0 noFail).state.authDb
      = some (some "mongodb://auth") := by
  have h := db_target_single_resolution "core" "jobs_core" cfg0 stResolved
      "K" "S" "T" hash0 noFail
  exact h.1 (some "mongodb://auth") (by decide)

/-- Claim C9: for nodes of type `api` or `auth`, `verify` copies the
process-wide keypair exposed by readiness into `config.local.certPublic` and
`config.local.certPrivate`, so two such nodes bootstrapped in the same process
receive byte-identical key material. -/
theorem api_auth_nodes_share_keypair (t1 i1 t2n i2 : String) (c1 c2 : Config)
    (pub priv : String) (fs2 : CertFS) (st : AuthState)
    (ka sa ta kb sb tb : String) (hash : String → String) (f1 f2 : FailSpec)
    (h1 : t1 = "api" ∨ t1 = "auth") (h2 : t2n = "api" ∨ t2n = "auth") :
    (verify t1 i1 c1 (JsResult.ok (pub, priv, fs2)) st ka sa ta hash f1).config.local_.certPublic
        = some pub ∧
    (verify t1 i1 c1 (JsResult.ok (pub, priv, fs2)) st ka sa ta hash f1).config.local_.certPrivate
        = some priv ∧
    (verify t2n i2 c2 (JsResult.ok (pub, priv, fs2)) st kb sb tb hash f2).config.local_.certPublic
      = (verify t1 i1 c1 (JsResult.ok (pub, priv, fs2)) st ka sa ta hash f1).config.local_.certPublic ∧
    (verify t2n i2 c2 (JsResult.ok (pub, priv, fs2)) st kb sb tb hash f2).config.local_.certPrivate
      = (verify t1 i1 c1 (JsResult.ok (pub, priv, fs2)) st ka sa ta hash f1).config.local_.certPrivate := by
  rcases h1 with rfl | rfl <;> rcases h2 with rfl | rfl <;>
    simp [verify, readyAfterCheck, verifyKeys, verifyUser]

/-- Witness for C9: an `api` node and an `auth` node get the same certs. -/
theorem api_auth_nodes_share_keypair_witness :
    (verify "api" "api_node" cfg0 (JsResult.ok ("GP", "GK", fsLoaded)) stFresh
        "K" "S" "T" hash0 noFail).config.local_.certPublic = some "GP" ∧
    (verify "auth" "auth_node" cfg0 (JsResult.ok ("GP", "GK", fsLoaded)) stFresh
        "K2" "S2" "T2" hash0 noFail).config.local_.certPublic
      = (verify "api" "api_node" cfg0 (JsResult.ok ("GP", "GK", fsLoaded)) stFresh
        "K" "S" "T" hash0 noFail).config.local_.certPublic := by
  have h := api_auth_nodes_share_keypair "api" "api_node" "auth" "auth_node"
      cfg0 cfg0 "GP" "GK" fsLoaded stFresh "K" "S" "T" "K2" "S2" "T2" hash0
      noFail noFail (Or.inl rfl) (Or.inr rfl)
  exact ⟨h.1, h.2.2.1⟩

/-- Claim C10 counterexample: `config.provided.userSecret` set to the empty
string is "set", yet the credential-resolution path IS invoked, because the
code tests JS truthiness (`!config.provided.userSecret`), not presence: the
run resolves the db-target promise, touches the shared store (a record is
inserted) and writes `userKey` into `config.local`. -/
theorem empty_secret_override_not_bypassed :
    cfgEmptySecret.provided.userSecret = some "" ∧
    (verifyUser "core" "auth_core" cfgEmptySecret stFresh "K" "S" "T" hash0 noFail).state.store
        ≠ [] ∧
    (verifyUser "core" "auth_core" cfgEmptySecret stFresh "K" "S" "T" hash0 noFail).config.local_.userKey
        = some "K" ∧
    (verifyUser "core" "auth_core" cfgEmptySecret stFresh "K" "S" "T" hash0 noFail).state.authDb
        ≠ none := by
  refine ⟨?_, ?_, ?_, ?_⟩ <;> decide

/-- Claim C10 as amended: if `config.provided.userSecret` is set to a
NON-EMPTY string (JS-truthy) when `verify` runs for a `core` node, the
credential-resolution path is never invoked: `verify` resolves immediately
with no effects, the shared store, cache file and db-target promise are
untouched, and the config is returned entirely unchanged — no `userKey` or
`userSecret` lands in `config.local`, the provided secret included. -/
theorem nonempty_secret_override_bypasses (id : String) (config : Config)
    (pub priv : String) (fs2 : CertFS) (st : AuthState)
    (k s t2 : String) (hash : String → String) (f : FailSpec)
    (hsec : truthy config.provided.userSecret = true) :
    verify "core" id config (JsResult.ok (pub, priv, fs2)) st k s t2 hash f =
      ⟨{ st with certPublic := some pub, certPrivate := some priv },
       config, JsResult.ok (), []⟩ := by
  unfold verify readyAfterCheck
  dsimp only
  unfold verifyKeys verifyUser
  rw [if_neg (by simp; exact hsec), if_neg (by simp)]

/-- Witness for C10's amended theorem with a concrete non-empty override. -/
theorem nonempty_secret_override_bypasses_witness :
    verify "core" "jobs_core"
        { provided := { userSecret := some "opSecret" } }
        (JsResult.ok ("GP", "GK", fsLoaded)) stFresh "K" "S" "T" hash0 noFail =
      ⟨{ stFresh with certPublic := some "GP", certPrivate := some "GK" },
       { provided := { userSecret := some "opSecret" } }, JsResult.ok (), []⟩ :=
  nonempty_secret_override_bypasses "jobs_core"
    { provided := { userSecret := some "opSecret" } }
    "GP" "GK" fsLoaded stFresh "K" "S" "T" hash0 noFail (by decide)

end Claims

end BlitzAuth
